import Mathlib

/-!
Verification development for the DeepSeek AI decision pipeline of the
Ox-and-Horse trading bot (`internal/ai/deepseek/client.go` and
`internal/ai/types.go`).

The Go code is shallowly embedded: `float64` fields become `Rat` (the code
performs only comparisons, divisions and fixed-point rendering on them),
`int` becomes `Int`, strings become `String` manipulated through explicit
models of the `strings`-package helpers the code calls, and `time.Now()`
becomes an explicit timestamp argument.  Byte indices returned by
`strings.Index` are modelled as character indices: every search in this code
looks for a one-byte character (`\n`, the first brace, the last brace), and
slicing at the byte offset of such a character yields exactly the character
slice, so the two views agree on the operations performed here.
-/

namespace Autobot

/-- Characters accepted by Go's `unicode.IsSpace` that can occur here: the
ASCII white-space set plus NEL and NBSP.  (The exotic `Zs` code points are
not produced by any caller in this repository.) -/
def goIsSpace (c : Char) : Bool :=
  [32, 9, 10, 11, 12, 13, 0x85, 0xA0].contains c.toNat

/-- Left trim of `strings.TrimSpace`. -/
def trimLeftList (l : List Char) : List Char := l.dropWhile goIsSpace

/-- Right trim of `strings.TrimSpace`. -/
def trimRightList (l : List Char) : List Char := l.rdropWhile goIsSpace

/-- Model of Go `strings.TrimSpace`. -/
def goTrimSpace (s : String) : String := String.mk (trimRightList (trimLeftList s.data))

/-- `isPrefixList pre l` holds when `pre` is a prefix of `l`. -/
def isPrefixList : List Char → List Char → Bool
  | [], _ => true
  | _ :: _, [] => false
  | p :: ps, c :: cs => p == c && isPrefixList ps cs

/-- Model of Go `strings.HasPrefix s pre`. -/
def goHasPrefixStr (s pre : String) : Bool := isPrefixList pre.data s.data

/-- Model of Go `strings.TrimPrefix s pre`. -/
def goTrimPrefixStr (s pre : String) : String :=
  if goHasPrefixStr s pre then String.mk (s.data.drop pre.data.length) else s

/-- Model of Go `strings.HasSuffix s suf`. -/
def goHasSuffixStr (s suf : String) : Bool := isPrefixList suf.data.reverse s.data.reverse

/-- Model of Go `strings.TrimSuffix s suf`. -/
def goTrimSuffixStr (s suf : String) : String :=
  if goHasSuffixStr s suf then String.mk (s.data.take (s.data.length - suf.data.length)) else s

/-- ASCII lower-casing of one character (the only case folding these call
sites rely on). -/
def charToLower (c : Char) : Char :=
  if 'A' ≤ c && c ≤ 'Z' then Char.ofNat (c.toNat + 32) else c

/-- ASCII upper-casing of one character. -/
def charToUpper (c : Char) : Char :=
  if 'a' ≤ c && c ≤ 'z' then Char.ofNat (c.toNat - 32) else c

/-- Model of Go `strings.ToLower` (ASCII range). -/
def goToLower (s : String) : String := String.mk (s.data.map charToLower)

/-- Model of Go `strings.ToUpper` (ASCII range). -/
def goToUpper (s : String) : String := String.mk (s.data.map charToUpper)

/-- Position of the first occurrence of `c`, if any. -/
def idxOfCharList (c : Char) : List Char → Option Nat
  | [] => none
  | x :: xs => if x == c then some 0 else (idxOfCharList c xs).map (· + 1)

/-- Model of Go `strings.Index s (string c)` for a one-byte needle:
`none` stands for Go's `-1`. -/
def goIndexChar (s : String) (c : Char) : Option Nat := idxOfCharList c s.data

/-- Model of Go `strings.LastIndex s (string c)` for a one-byte needle. -/
def goLastIndexChar (s : String) (c : Char) : Option Nat :=
  (idxOfCharList c s.data.reverse).map (fun i => s.data.length - 1 - i)

/-- Go slice `s[n:]`. -/
def dropStr (n : Nat) (s : String) : String := String.mk (s.data.drop n)

/-- Go slice `s[:n]`. -/
def takeStr (n : Nat) (s : String) : String := String.mk (s.data.take n)

/-- Go slice `s[a:b]`. -/
def sliceStr (s : String) (a b : Nat) : String := String.mk ((s.data.take b).drop a)

/-- Substring occurrence test on character lists. -/
def containsList (sub : List Char) : List Char → Bool
  | [] => isPrefixList sub []
  | c :: cs => isPrefixList sub (c :: cs) || containsList sub cs

/-- Model of Go `strings.Contains`. -/
def goContains (s sub : String) : Bool := containsList sub.data s.data

/-- Model of Go `strings.Trim s (string c)` for a one-character cut set. -/
def goTrimChar (s : String) (c : Char) : String :=
  String.mk ((((s.data.dropWhile (· == c)).reverse).dropWhile (· == c)).reverse)

/-- Model of `trimJSONFences` (client.go): strips a leading ``` fence, an
optional `json` language tag line, and a trailing ``` fence, trimming white
space at each step. -/
def trimJSONFences (s : String) : String :=
  let trimmed := goTrimSpace s
  if goHasPrefixStr trimmed "```" then
    let t1 := goTrimSpace (goTrimPrefixStr trimmed "```")
    let t2 :=
      if goHasPrefixStr (goToLower t1) "json" then
        match goIndexChar t1 '\n' with
        | some idx => dropStr (idx + 1) t1
        | none => ""
      else t1
    let t3 := goTrimSpace t2
    let t4 := if goHasSuffixStr t3 "```" then goTrimSuffixStr t3 "```" else t3
    goTrimSpace t4
  else trimmed

/-- Model of `extractCoTTrace` (client.go): the free-text preamble in front of
the first opening brace, with a `json`-tagged fence line and stray backticks
removed. -/
def extractCoTTrace (raw : String) : String :=
  let trimmed := goTrimSpace raw
  let trimmed :=
    if goHasPrefixStr (goToLower trimmed) "```json" then
      match goIndexChar trimmed '\n' with
      | some idx => goTrimSpace (dropStr (idx + 1) trimmed)
      | none => trimmed
    else trimmed
  match goIndexChar trimmed (Char.ofNat 123) with
  | none => ""
  | some idx =>
    if idx = 0 then ""
    else
      let trace := goTrimSpace (takeStr idx trimmed)
      goTrimSpace (goTrimChar trace (Char.ofNat 96))

/-! Fixed-point rendering used by `fmt` verbs `%.Nf`, `%+.Nf` and by the
JSON encoder's float output.  Go rounds floats through their binary
representation; the model rounds the exact rational half away from zero,
which agrees with Go on every value printed in this development (no ties
occur at the rendered precision). -/

/-- Digits of `n` padded on the left with zeros to at least `width` characters. -/
def padZeros (s : String) (width : Nat) : String :=
  if s.length < width then String.mk (List.replicate (width - s.length) '0') ++ s else s

/-- Digits of `n` with a decimal point `prec` places from the right. -/
def fmtFixedCore (prec : Nat) (n : Nat) : String :=
  if prec = 0 then toString n
  else
    let s := padZeros (toString n) (prec + 1)
    takeStr (s.length - prec) s ++ "." ++ dropStr (s.length - prec) s

/-- Model of `fmt` verb `%.{prec}f` on a `float64`. -/
def fmtF (prec : Nat) (q : Rat) : String :=
  let scaled : Int := round (|q| * (10 : Rat) ^ prec)
  (if q < 0 then "-" else "") ++ fmtFixedCore prec scaled.toNat

/-- Model of `fmt` verb `%+.{prec}f` on a `float64` (explicit sign). -/
def fmtPlusF (prec : Nat) (q : Rat) : String :=
  let scaled : Int := round (|q| * (10 : Rat) ^ prec)
  (if q < 0 then "-" else "+") ++ fmtFixedCore prec scaled.toNat

/-- Shortest-decimal rendering of a `float64` value, as produced by `%v` and
by `encoding/json` for numbers whose decimal expansion terminates (all
numbers rendered in this development do). -/
def goNumString (q : Rat) : String :=
  if q.den = 1 then toString q.num
  else
    match (List.range 40).find? (fun k => (q * (10 : Rat) ^ k).den = 1) with
    | some k =>
      let scaled : Int := (|q| * (10 : Rat) ^ k).num
      (if q < 0 then "-" else "") ++ fmtFixedCore k scaled.toNat
    | none => toString q.num ++ "/" ++ toString q.den

/-! The JSON value domain and a model of the `encoding/json` syntax accepted
by `json.Unmarshal`.  Numbers are kept as exact rationals. -/

/-- A parsed JSON value. -/
inductive Json where
  | null
  | bool (value : Bool)
  | num (value : Rat)
  | str (value : String)
  | arr (items : List Json)
  | obj (fields : List (String × Json))
deriving Repr

/-- JSON insignificant white space. -/
def isJsonWs (c : Char) : Bool := [32, 9, 10, 13].contains c.toNat

/-- Skip insignificant white space. -/
def skipJsonWs : List Char → List Char
  | [] => []
  | c :: cs => if isJsonWs c then skipJsonWs cs else c :: cs

/-- ASCII decimal digit test. -/
def isDigitCh (c : Char) : Bool := decide (c.toNat - 48 < 10 ∧ 48 ≤ c.toNat)

/-- Split a leading run of digits from the rest. -/
def takeDigitsList : List Char → List Char × List Char
  | [] => ([], [])
  | c :: cs =>
    if isDigitCh c then
      let r := takeDigitsList cs
      (c :: r.1, r.2)
    else ([], c :: cs)

/-- Value of a digit string. -/
def digitsVal (ds : List Char) : Nat := ds.foldl (fun a c => a * 10 + (c.toNat - 48)) 0

/-- Parse a JSON number literal into an exact rational. -/
def parseNumber (cs : List Char) : Option (Rat × List Char) :=
  let (neg, cs1) :=
    match cs with
    | c :: r => if c == '-' then (true, r) else (false, cs)
    | [] => (false, cs)
  let (ids, cs2) := takeDigitsList cs1
  if ids.isEmpty then none
  else
    let fracRes : Option (List Char × List Char) :=
      match cs2 with
      | c :: r =>
        if c == '.' then
          let (fds, rest) := takeDigitsList r
          if fds.isEmpty then none else some (fds, rest)
        else some ([], cs2)
      | [] => some ([], cs2)
    match fracRes with
    | none => none
    | some (fds, cs3) =>
      let expRes : Option (Int × List Char) :=
        match cs3 with
        | c :: r =>
          if c == 'e' || c == 'E' then
            let (esign, r1) : Int × List Char :=
              match r with
              | d :: r2 => if d == '+' then (1, r2) else if d == '-' then (-1, r2) else (1, r)
              | [] => (1, r)
            let (eds, r3) := takeDigitsList r1
            if eds.isEmpty then none else some (esign * (digitsVal eds : Int), r3)
          else some (0, cs3)
        | [] => some (0, cs3)
      match expRes with
      | none => none
      | some (ex, cs4) =>
        let mant : Int := (if neg then -1 else 1) * (digitsVal (ids ++ fds) : Int)
        let e10 : Int := ex - (fds.length : Int)
        let value : Rat :=
          if 0 ≤ e10 then (mant : Rat) * (10 : Rat) ^ e10.toNat
          else (mant : Rat) / (10 : Rat) ^ (-e10).toNat
        some (value, cs4)

/-- Value of one hexadecimal digit. -/
def hexDigitVal (c : Char) : Option Nat :=
  let n := c.toNat
  if 48 ≤ n ∧ n ≤ 57 then some (n - 48)
  else if 97 ≤ n ∧ n ≤ 102 then some (n - 87)
  else if 65 ≤ n ∧ n ≤ 70 then some (n - 55)
  else none

/-- Escape letters paired with the character each one denotes. -/
def escapePairs : List (Char × Char) :=
  [('"', '"'), ('\\', '\\'), ('/', '/'), ('n', '\n'), ('r', '\r'), ('t', '\t'),
   ('b', Char.ofNat 8), ('f', Char.ofNat 12)]

/-- Single-character string escapes, by table lookup. -/
def simpleEscape (c : Char) : Option Char :=
  ((escapePairs.filter (fun p : Char × Char => p.1 == c)).head?).map
    (fun p : Char × Char => p.2)

/-- Value of a four-digit hexadecimal escape. -/
def hexQuad (a b c d : Char) : Option Nat :=
  match hexDigitVal a, hexDigitVal b, hexDigitVal c, hexDigitVal d with
  | some va, some vb, some vc, some vd => some ((((va * 16) + vb) * 16 + vc) * 16 + vd)
  | _, _, _, _ => none

/-- Parse the body of a string literal after the opening quote. -/
def parseStringBody (acc : List Char) : List Char → Option (String × List Char)
  | [] => none
  | c :: cs =>
    if c == '"' then some (String.mk acc.reverse, cs)
    else if c == '\\' then
      match cs with
      | [] => none
      | e :: cs2 =>
        if e == 'u' then
          match cs2 with
          | a :: b :: c2 :: d :: cs3 =>
            match hexQuad a b c2 d with
            | some n => parseStringBody (Char.ofNat n :: acc) cs3
            | none => none
          | _ => none
        else
          match simpleEscape e with
          | some ch => parseStringBody (ch :: acc) cs2
          | none => none
    else parseStringBody (c :: acc) cs

mutual

/-- Parse one JSON value; `fuel` bounds the recursion and is chosen large
enough for the whole input at the top level.  The head character selects the
production; keywords are verified by a prefix test on their remaining
letters. -/
def parseVal : Nat → List Char → Option (Json × List Char)
  | 0, _ => none
  | fuel + 1, cs =>
    match skipJsonWs cs with
    | [] => none
    | c :: r =>
      if c == 'n' then
        if isPrefixList "ull".data r then some (.null, r.drop 3) else none
      else if c == 't' then
        if isPrefixList "rue".data r then some (.bool true, r.drop 3) else none
      else if c == 'f' then
        if isPrefixList "alse".data r then some (.bool false, r.drop 4) else none
      else if c == '"' then (parseStringBody [] r).map (fun p => (.str p.1, p.2))
      else if c == '[' then
        match skipJsonWs r with
        | [] => none
        | c2 :: r2 =>
          if c2 == ']' then some (.arr [], r2)
          else
            match parseElems fuel (c2 :: r2) with
            | some (es, r3) => some (.arr es, r3)
            | none => none
      else if c == Char.ofNat 123 then
        match skipJsonWs r with
        | [] => none
        | c2 :: r2 =>
          if c2 == Char.ofNat 125 then some (.obj [], r2)
          else
            match parseMembers fuel (c2 :: r2) with
            | some (ms, r3) => some (.obj ms, r3)
            | none => none
      else if c == '-' || isDigitCh c then
        (parseNumber (c :: r)).map (fun p => (.num p.1, p.2))
      else none

/-- Parse one or more comma-separated array elements up to the closing
bracket. -/
def parseElems : Nat → List Char → Option (List Json × List Char)
  | 0, _ => none
  | fuel + 1, cs =>
    match parseVal fuel cs with
    | none => none
    | some (v, r) =>
      match skipJsonWs r with
      | [] => none
      | c :: r2 =>
        if c == ',' then (parseElems fuel r2).map (fun p => (v :: p.1, p.2))
        else if c == ']' then some ([v], r2)
        else none

/-- Parse one or more comma-separated object members up to the closing
brace. -/
def parseMembers : Nat → List Char → Option (List (String × Json) × List Char)
  | 0, _ => none
  | fuel + 1, cs =>
    match skipJsonWs cs with
    | [] => none
    | c0 :: r =>
      if c0 == '"' then
        match parseStringBody [] r with
        | none => none
        | some (key, r1) =>
          match skipJsonWs r1 with
          | [] => none
          | c1 :: r2 =>
            if c1 == ':' then
              match parseVal fuel r2 with
              | none => none
              | some (v, r3) =>
                match skipJsonWs r3 with
                | [] => none
                | c :: r4 =>
                  if c == ',' then
                    (parseMembers fuel r4).map (fun p => ((key, v) :: p.1, p.2))
                  else if c == Char.ofNat 125 then some ([(key, v)], r4)
                  else none
            else none
      else none

end

/-- Model of `json.Unmarshal`'s syntax layer: the whole input, up to
insignificant white space, must be one JSON value. -/
def jsonUnmarshal (s : String) : Option Json :=
  let cs := s.data
  match parseVal (2 * cs.length + 2) cs with
  | some (j, r) => if (skipJsonWs r).isEmpty then some j else none
  | none => none

/-! Data model of `internal/ai/types.go` (`float64` as `Rat`, `int` as `Int`). -/

/-- Risk boundaries handed to validation (`ai.RiskLimits`). -/
structure RiskLimits where
  maxDailyLossPercent : Rat
  maxPositionNotionalUSD : Rat
  maxConcurrentPositions : Int
  maxLeverage : Rat
  btcEthNotionalMultiple : Rat
  altNotionalMultiple : Rat
  minRiskRewardRatio : Rat
deriving Repr, DecidableEq

instance : Inhabited RiskLimits := ⟨⟨0, 0, 0, 0, 0, 0, 0⟩⟩

/-- Position and risk fine-tuning emitted by the model (`ai.AdjustmentPlan`). -/
structure AdjustmentPlan where
  sizeMultiplier : Rat
  targetLeverage : Rat
  stopLossPercent : Rat
  takeProfitPercent : Rat
  trailingStopPercent : Rat
deriving Repr, DecidableEq

instance : Inhabited AdjustmentPlan := ⟨⟨0, 0, 0, 0, 0⟩⟩

/-- Structured trading suggestion returned by the AI (`ai.DecisionResponse`). -/
structure DecisionResponse where
  action : String
  confidence : Rat
  reason : String
  adjustments : AdjustmentPlan
  riskNotes : List String
  rawContent : String
  cotTrace : String
deriving Repr, DecidableEq

instance : Inhabited DecisionResponse := ⟨⟨"", 0, "", default, [], "", ""⟩⟩

/-! Model of `fmt.Sprint` on values decoded from JSON into `interface\x7b\x7d`
(as used by `parseRiskNotes` for mixed-type lists) and of the compact
`encoding/json` encoder (used only inside error text). -/

/-- Insert a rendered map entry into a key-sorted list (`fmt` prints map
entries key-sorted). -/
def insertEntrySorted (kv : String × String) : List (String × String) → List (String × String)
  | [] => [kv]
  | m :: ms => if kv.1 ≤ m.1 then kv :: m :: ms else m :: insertEntrySorted kv ms

/-- Sort rendered map entries by key. -/
def sortEntries (ms : List (String × String)) : List (String × String) :=
  ms.foldr insertEntrySorted []

/-- Join rendered map entries as `key:value`, space-separated. -/
def joinEntries : List (String × String) → String
  | [] => ""
  | [m] => m.1 ++ ":" ++ m.2
  | m :: ms => m.1 ++ ":" ++ m.2 ++ " " ++ joinEntries ms

mutual

/-- Model of `fmt.Sprint` applied to one decoded JSON value. -/
def goSprint : Json → String
  | .null => "<nil>"
  | .bool b => cond b "true" "false"
  | .num q => goNumString q
  | .str s => s
  | .arr xs => "[" ++ goSprintList xs ++ "]"
  | .obj ms => "map[" ++ joinEntries (sortEntries (goSprintMembers ms)) ++ "]"

/-- Space-separated rendering of slice elements. -/
def goSprintList : List Json → String
  | [] => ""
  | [x] => goSprint x
  | x :: xs => goSprint x ++ " " ++ goSprintList xs

/-- Rendering of each map entry's value, in stored order. -/
def goSprintMembers : List (String × Json) → List (String × String)
  | [] => []
  | m :: ms => (m.1, goSprint m.2) :: goSprintMembers ms

end

/-- Escape one character for a JSON string literal. -/
def jsonEscapeChar (c : Char) : String :=
  if c == '"' then "\\\""
  else if c == '\\' then "\\\\"
  else if c == '\n' then "\\n"
  else if c == '\t' then "\\t"
  else if c == '\r' then "\\r"
  else String.mk [c]

/-- Escape a string for a JSON string literal. -/
def jsonEscape (s : String) : String := s.data.foldr (fun c acc => jsonEscapeChar c ++ acc) ""

mutual

/-- Compact JSON encoding of a value (for the raw text echoed in error
messages). -/
def jsonSerialize : Json → String
  | .null => "null"
  | .bool b => cond b "true" "false"
  | .num q => goNumString q
  | .str s => "\"" ++ jsonEscape s ++ "\""
  | .arr xs => "[" ++ jsonSerializeList xs ++ "]"
  | .obj ms => "\x7b" ++ jsonSerializeMembers ms ++ "\x7d"

/-- Comma-separated encoding of array elements. -/
def jsonSerializeList : List Json → String
  | [] => ""
  | [x] => jsonSerialize x
  | x :: xs => jsonSerialize x ++ "," ++ jsonSerializeList xs

/-- Comma-separated encoding of object members. -/
def jsonSerializeMembers : List (String × Json) → String
  | [] => ""
  | [m] => "\"" ++ jsonEscape m.1 ++ "\":" ++ jsonSerialize m.2
  | m :: ms => "\"" ++ jsonEscape m.1 ++ "\":" ++ jsonSerialize m.2 ++ "," ++ jsonSerializeMembers ms

end

/-- An element Go's `[]string` unmarshal accepts: a string, or `null` (which
"has no effect on the value and produces no error", leaving the zero value). -/
def isStrOrNull : Json → Bool
  | .str _ => true
  | .null => true
  | _ => false

/-- The string such an element decodes to: the string itself, or `""` for a
`null` element. -/
def strOrNullVal : Json → String
  | .str s => s
  | _ => ""

/-- `json.Unmarshal` into `[]string`: succeeds exactly on an array all of
whose elements are strings or `null` — a `null` element leaves the slice
entry at its zero value `""` and produces no error — and fails on any other
element (the surrounding `null` case is handled by the caller). -/
def asStringList : Json → Option (List String)
  | .arr items =>
    items.foldr
      (fun item acc =>
        match item, acc with
        | .str s, some ss => some (s :: ss)
        | .null, some ss => some ("" :: ss)
        | _, _ => none)
      (some [])
  | _ => none

/-- Model of `parseRiskNotes` (client.go): the `riskNotes` field is `none`
when absent; `some .null` models the raw bytes `null`.  Go tries, in order,
`[]string`, `string`, then `[]interface\x7b\x7d` with `fmt.Sprint` on each
element, and fails on every other shape. -/
def parseRiskNotes (raw : Option Json) : Except String (List String) :=
  match raw with
  | none => .ok []
  | some .null => .ok []
  | some v =>
    match asStringList v with
    | some notes => .ok notes
    | none =>
      match v with
      | .str single => if goTrimSpace single = "" then .ok [] else .ok [single]
      | .arr items => .ok (items.map goSprint)
      | _ => .error ("riskNotes 无法解析: " ++ jsonSerialize v)

/-- Last-occurrence field lookup (later duplicate keys win in `encoding/json`). -/
def jsonLookup (kvs : List (String × Json)) (key : String) : Option Json :=
  ((kvs.filter (fun kv : String × Json => kv.1 == key)).getLast?).map
    (fun kv : String × Json => kv.2)

/-- Decode an optional field into a Go `string` (absent and `null` leave the
zero value; any non-string value is a type error). -/
def asGoString : Option Json → Except String String
  | none => .ok ""
  | some .null => .ok ""
  | some (.str s) => .ok s
  | some _ => .error "json: cannot unmarshal value into field of type string"

/-- Decode an optional field into a Go `float64`. -/
def asGoFloat : Option Json → Except String Rat
  | none => .ok 0
  | some .null => .ok 0
  | some (.num q) => .ok q
  | some _ => .error "json: cannot unmarshal value into field of type float64"

/-- Decode the `adjustments` object into an `ai.AdjustmentPlan`. -/
def asAdjustments : Option Json → Except String AdjustmentPlan
  | none => .ok default
  | some .null => .ok default
  | some (.obj kvs) => do
    let size ← asGoFloat (jsonLookup kvs "sizeMultiplier")
    let lev ← asGoFloat (jsonLookup kvs "targetLeverage")
    let sl ← asGoFloat (jsonLookup kvs "stopLossPercent")
    let tp ← asGoFloat (jsonLookup kvs "takeProfitPercent")
    let trail ← asGoFloat (jsonLookup kvs "trailingStopPercent")
    .ok ⟨size, lev, sl, tp, trail⟩
  | some _ => .error "json: cannot unmarshal value into field of type ai.AdjustmentPlan"

/-- Model of `decodeDecision` (client.go): `json.Unmarshal` of the content
into `rawDecision` followed by `parseRiskNotes` on the raw `riskNotes`
field.  `RawContent` and `CoTTrace` are filled by the caller. -/
def decodeDecision (content : String) : Except String DecisionResponse :=
  match jsonUnmarshal content with
  | none => .error "invalid character in JSON input"
  | some .null => .ok default
  | some (.obj kvs) => do
    let action ← asGoString (jsonLookup kvs "action")
    let conf ← asGoFloat (jsonLookup kvs "confidence")
    let reason ← asGoString (jsonLookup kvs "reason")
    let adj ← asAdjustments (jsonLookup kvs "adjustments")
    let notes ← parseRiskNotes (jsonLookup kvs "riskNotes")
    .ok ⟨action, conf, reason, adj, notes, "", ""⟩
  | some _ => .error "json: cannot unmarshal value into rawDecision"

/-- Model of `parseFullDecisionResponse` (client.go): strip fences, try a
structural decode of the whole content, then fall back to the substring from
the first opening brace to the last closing brace. -/
def parseFullDecisionResponse (raw : String) : Except String DecisionResponse :=
  let content := trimJSONFences raw
  if content = "" then .error "模型未返回内容"
  else
    match decodeDecision content with
    | .ok resp => .ok { resp with rawContent := content, cotTrace := extractCoTTrace raw }
    | .error _ =>
      match goIndexChar content (Char.ofNat 123), goLastIndexChar content (Char.ofNat 125) with
      | some start, some stop =>
        if start < stop then
          let snippet := sliceStr content start (stop + 1)
          match decodeDecision snippet with
          | .ok resp => .ok { resp with rawContent := content, cotTrace := extractCoTTrace raw }
          | .error _ => .error ("无法解析模型输出: " ++ content)
        else .error ("无法解析模型输出: " ++ content)
      | _, _ => .error ("无法解析模型输出: " ++ content)

/-- Actions accepted by validation (`validActions` in client.go). -/
def validActionsList : List String :=
  ["open_long", "open_short", "increase_long", "increase_short",
   "close", "exit", "reduce", "hold", "wait"]

/-- Membership in the valid-action set. -/
def isValidAction (a : String) : Bool := validActionsList.contains a

/-- Model of `validateDecisionResponse` (client.go): action enumeration,
leverage bounds, then the risk/reward veto with a `1e-9` tolerance. -/
def validateDecisionResponse (decision : DecisionResponse) (limits : RiskLimits) :
    Except String Unit :=
  let action := goToLower (goTrimSpace decision.action)
  if (!isValidAction action) && (action != "") then
    .error ("未知 action: " ++ decision.action)
  else
    let targetLev := decision.adjustments.targetLeverage
    if targetLev < 0 then .error "targetLeverage 不得为负数"
    else if RiskLimits.maxLeverage limits > 0 ∧ targetLev > RiskLimits.maxLeverage limits then
      .error ("targetLeverage " ++ fmtF 2 targetLev ++ " 超过上限 " ++
        fmtF 2 (RiskLimits.maxLeverage limits))
    else if decision.adjustments.stopLossPercent > 0 ∧
        decision.adjustments.takeProfitPercent > 0 ∧
        RiskLimits.minRiskRewardRatio limits > 0 then
      let rr := decision.adjustments.takeProfitPercent / decision.adjustments.stopLossPercent
      if rr + 1 / 1000000000 < RiskLimits.minRiskRewardRatio limits then
        .error ("风险回报 " ++ fmtF 2 rr ++ " 低于要求 " ++
          fmtF 2 (RiskLimits.minRiskRewardRatio limits))
      else .ok ()
    else .ok ()

/-- The decision post-processing of `GenerateDecision` (client.go, after the
LLM call returns `respContent`): parse, overwrite `RawContent` with the raw
response, backfill `CoTTrace`, then validate. -/
def processDecisionContent (respContent : String) (limits : RiskLimits) :
    Except String DecisionResponse :=
  match parseFullDecisionResponse respContent with
  | .error e => .error e
  | .ok d0 =>
    let d1 : DecisionResponse := { d0 with rawContent := respContent }
    let d2 : DecisionResponse :=
      if d1.cotTrace = "" then { d1 with cotTrace := extractCoTTrace respContent } else d1
    match validateDecisionResponse d2 limits with
    | .ok _ => .ok d2
    | .error e => .error e

/-- Decidable equality for `Except`, so concrete runs can be checked by
`decide`. -/
instance instDecEqExcept {ε α : Type} [DecidableEq ε] [DecidableEq α] :
    DecidableEq (Except ε α) := fun x y =>
  match x, y with
  | .error a, .error b =>
    if h : a = b then .isTrue (congrArg Except.error h)
    else .isFalse fun hh => h (Except.error.inj hh)
  | .error _, .ok _ => .isFalse fun hh => Except.noConfusion hh
  | .ok _, .error _ => .isFalse fun hh => Except.noConfusion hh
  | .ok a, .ok b =>
    if h : a = b then .isTrue (congrArg Except.ok h)
    else .isFalse fun hh => h (Except.ok.inj hh)

/-! Retry machinery of `CallWithMessages` / `sendCompletion` / `isNetworkError`
(client.go).  A Go `error` is modelled as its text plus one bit recording
whether `errors.As` would match one of the typed network classes the
classifier inspects (a `net.Error` timeout, a `*net.DNSError`, or a
`*net.OpError`); `fmt.Errorf("...: %w", err)` wrapping keeps that bit. -/

/-- A Go error value as seen by the retry classifier. -/
structure GoError where
  msg : String
  typedNet : Bool
deriving Repr, DecidableEq

/-- One chat message (`completionMessage`). -/
structure CompletionMessage where
  role : String
  content : String
deriving Repr, DecidableEq

/-- The response payload (`completionResponse`): choices plus an optional
provider-reported error message. -/
structure CompletionResponse where
  choices : List CompletionMessage
  error : Option String
deriving Repr, DecidableEq

/-- Outcome of one `PostJSON` transport call. -/
inductive PostResult where
  | fail (e : GoError)
  | success (resp : CompletionResponse)
deriving Repr

/-- Retry loop bound (`maxRetries`). -/
def maxRetries : Nat := 3

/-- Base backoff delay in seconds (`baseRetryDelay = 2 * time.Second`). -/
def baseRetryDelaySec : Nat := 2

/-- Substring fallback of the network-error classifier. -/
def isNetSubstr (m : String) : Bool :=
  goContains m "connection" || goContains m "network" || goContains m "timeout" ||
  goContains m "reset" || goContains m "refused"

/-- Model of `isNetworkError` (client.go): a typed network error, or any
error whose text mentions one of the network keywords.  (`err == nil` never
reaches this point in the loop.) -/
def isNetworkError (e : GoError) : Bool := e.typedNet || isNetSubstr e.msg

/-- Model of `sendCompletion` (client.go) for one attempt, given that
attempt's transport outcome: transport failures are wrapped, a non-empty
`error` payload field and an empty `choices` list become plain business
errors, otherwise the first choice's message is returned. -/
def sendCompletion (messages : List CompletionMessage) (r : PostResult) :
    Except GoError CompletionMessage :=
  if messages.isEmpty then .error ⟨"messages为空", false⟩
  else
    match r with
    | .fail e => .error ⟨"deepseek request: " ++ e.msg, e.typedNet⟩
    | .success payload =>
      match payload.error with
      | some m => .error ⟨m, false⟩
      | none =>
        match payload.choices with
        | [] => .error ⟨"deepseek无返回结果", false⟩
        | first :: _ => .ok first

/-- Result of a `CallWithMessages` run: the returned value or error, the
number of `sendCompletion` attempts made, and the backoff sleeps (seconds)
in order. -/
structure CallResult where
  result : Except GoError String
  attemptsMade : Nat
  delays : List Nat
deriving Repr, DecidableEq

/-- The failure message built after exhausting the retries
(`fmt.Errorf("重试%d次后仍然失败: %w", maxRetries, lastErr)`). -/
def exhaustedError (lastErr : Option GoError) : GoError :=
  match lastErr with
  | some e => ⟨"重试" ++ toString maxRetries ++ "次后仍然失败: " ++ e.msg, e.typedNet⟩
  | none => ⟨"重试" ++ toString maxRetries ++ "次后仍然失败: %!w(<nil>)", false⟩

/-- The retry loop of `CallWithMessages`, one step per remaining attempt
(`fuel` counts the attempts the `attempt <= maxRetries` guard still allows).
On a network-classified error the loop records a sleep of
`attempt × baseRetryDelay` and retries; any other error returns at once. -/
def callLoop (messages : List CompletionMessage) (transport : Nat → PostResult) :
    Nat → Nat → Option GoError → List Nat → CallResult
  | 0, attempt, lastErr, delays =>
    ⟨.error (exhaustedError lastErr), attempt - 1, delays⟩
  | fuel + 1, attempt, _lastErr, delays =>
    match sendCompletion messages (transport attempt) with
    | .ok msg => ⟨.ok msg.content, attempt, delays⟩
    | .error e =>
      if isNetworkError e then
        callLoop messages transport fuel (attempt + 1) (some e)
          (delays ++ [attempt * baseRetryDelaySec])
      else ⟨.error e, attempt, delays⟩

/-- Model of `CallWithMessages` (client.go): build the system/user message
pair and run the bounded retry loop over the per-attempt transport outcomes. -/
def callWithMessages (systemPrompt userPrompt : String) (transport : Nat → PostResult) :
    CallResult :=
  let messages : List CompletionMessage :=
    [⟨"system", systemPrompt⟩, ⟨"user", userPrompt⟩]
  callLoop messages transport maxRetries 1 none []

/-- The delay sequence the spec describes: `n × base_delay` after failing
attempt `n`, for `n = 1..m`. -/
def mkDelays (m : Nat) : List Nat := (List.range' 1 m).map (fun n => n * baseRetryDelaySec)

/-! Prompt-synthesis context (`internal/ai/types.go`, the fields the prompt
builders read) and the builders themselves (`prompt.go` part of the deepseek
package).  `time.Now().Format(...)` in `buildUserPrompt` is modelled as the
explicit `now` argument. -/

/-- News sentiment attached to the request (`news.SentimentSummary`). -/
structure SentimentSummary where
  sentiment : String
  score : Rat
  highlights : List String
  riskFactors : List String
deriving Repr, DecidableEq

instance : Inhabited SentimentSummary := ⟨⟨"", 0, [], []⟩⟩

/-- Account state shown in the user prompt (`ai.AccountContext`). -/
structure AccountContext where
  totalEquity : Rat
  available : Rat
  unrealizedPNL : Rat
  dailyRealized : Rat
  maxDrawdown : Rat
  marginUsage : Rat
deriving Repr, DecidableEq

instance : Inhabited AccountContext := ⟨⟨0, 0, 0, 0, 0, 0⟩⟩

/-- One open position as shown to the AI (`ai.PositionContext`). -/
structure PositionContext where
  symbol : String
  side : String
  quantity : Rat
  entryPrice : Rat
  leverage : Rat
  unrealizedPNL : Rat
  holdingMinutes : Int
  markPrice : Rat
  unrealizedPct : Rat
  marginUsed : Rat
  liquidation : Rat
deriving Repr, DecidableEq

/-- One candidate coin (`ai.CandidateContext`). -/
structure CandidateContext where
  symbol : String
  weight : Rat
  reason : String
deriving Repr, DecidableEq

/-- One market snapshot (`ai.MarketDataSnapshot`). -/
structure MarketDataSnapshot where
  symbol : String
  currentPrice : Rat
  priceChange1h : Rat
  priceChange4h : Rat
  ema20 : Rat
  macd : Rat
  macdSignal : Rat
  rsi7 : Rat
  rsi14 : Rat
  fundingRate : Rat
  openInterest : Rat
  volume24h : Rat
  dataInterval : String
deriving Repr, DecidableEq

instance : Inhabited MarketDataSnapshot := ⟨⟨"", 0, 0, 0, 0, 0, 0, 0, 0, 0, 0, 0, ""⟩⟩

/-- Aggregate performance statistics (`ai.PerformanceStats`). -/
structure PerformanceStats where
  sharpeRatio : Rat
  winRate : Rat
  totalTrades : Int
  profitFactor : Rat
deriving Repr, DecidableEq

instance : Inhabited PerformanceStats := ⟨⟨0, 0, 0, 0⟩⟩

/-- One compressed position of the request (`ai.PositionSnapshot`). -/
structure PositionSnapshot where
  symbol : String
  side : String
  quantity : Rat
  entryPrice : Rat
  leverage : Rat
  unrealizedPNL : Rat
deriving Repr, DecidableEq

/-- Richer state background (`ai.DecisionContext`); the `MarketData` map is
modelled as an association list whose keys are the map's keys. -/
structure DecisionContext where
  currentTime : String
  runtimeMinutes : Int
  callCount : Int
  account : AccountContext
  positions : List PositionContext
  candidateCoins : List CandidateContext
  marketData : List (String × MarketDataSnapshot)
  performance : PerformanceStats
  btcEthLeverage : Int
  altcoinLeverage : Int
  marginUsage : Rat
  initialEquity : Rat
  pnlPercent : Rat
deriving Repr, DecidableEq

instance : Inhabited DecisionContext := ⟨⟨"", 0, 0, default, [], [], [], default, 0, 0, 0, 0, 0⟩⟩

/-- The full decision request (`ai.DecisionRequest`). -/
structure DecisionRequest where
  traderName : String
  exchange : String
  symbol : String
  currentPrice : Rat
  strategySignal : String
  accountBalance : Rat
  availableBalance : Rat
  unrealizedPNL : Rat
  positions : List PositionSnapshot
  learningSnippets : List String
  newsSentiment : SentimentSummary
  riskLimits : RiskLimits
  context : DecisionContext
deriving Repr, DecidableEq

instance : Inhabited DecisionRequest :=
  ⟨⟨"", "", "", 0, "", 0, 0, 0, [], [], default, default, default⟩⟩

/-- Run-time information bundled for prompt generation (`promptContext`). -/
structure promptContext where
  request : DecisionRequest
  performance : PerformanceStats
  positions : List PositionContext
deriving Repr, DecidableEq

instance : Inhabited promptContext := ⟨⟨default, default, []⟩⟩

/-- Model of `newPromptContext`. -/
def newPromptContext (req : DecisionRequest) (performance : PerformanceStats)
    (positions : List PositionContext) : promptContext :=
  ⟨req, performance, positions⟩

/-- Model of `formatNewsSummary`. -/
def formatNewsSummary (sentiment : String) (score : Rat) : String :=
  if sentiment = "" then "无"
  else if score = 0 then sentiment
  else sentiment ++ "(" ++ fmtF 2 score ++ ")"

/-- Go `int(f)` conversion: truncation toward zero. -/
def truncQ (q : Rat) : Int := if 0 ≤ q then ⌊q⌋ else -⌊-q⌋

/-- The four reflection tiers selected from the Sharpe ratio. -/
inductive ReflectionTier where
  | halt
  | caution
  | steady
  | expand
deriving Repr, DecidableEq

/-- The tier selection of `buildReflectionPrompt`: the `if` chain on the
Sharpe ratio, most punitive tier first. -/
def reflectionTier (sharpe : Rat) : ReflectionTier :=
  if sharpe < -(1 / 2 : Rat) then .halt
  else if sharpe < 0 then .caution
  else if sharpe < (7 / 10 : Rat) then .steady
  else .expand

/-- The directive bundle written for each tier (the branch bodies of the
`if` chain in `buildReflectionPrompt`). -/
def reflectionTierText : ReflectionTier → String
  | .halt =>
    "**夏普比率 < -0.5** (持续亏损):\n  → 🛑 停止交易，连续观望至少6个周期（18分钟）\n  → 🔍 深度反思：\n     • 交易频率过高？（每小时>2次就是过度）\n     • 持仓时间过短？（<30分钟就是过早平仓）\n     • 信号强度不足？（信心度<75）\n     • 是否在做空？（单边做多是错误的）\n\n"
  | .caution =>
    "**夏普比率 -0.5 ~ 0** (轻微亏损):\n  → ⚠️ 严格风控：信心度>80，每小时≤1笔\n  → 📉 降低风险：减少仓位规模，提高止损比例\n\n"
  | .steady =>
    "**夏普比率 0 ~ 0.7** (稳定盈利):\n  → ✅ 维持策略：继续当前交易模式\n  → 📈 小幅优化：寻找改进机会\n\n"
  | .expand =>
    "**夏普比率 > 0.7** (优秀表现):\n  → 🚀 优化扩张：适度扩大仓位，复制成功模式\n\n"

/-- The per-position holding-time lines of the reflection prompt. -/
def renderHoldingAnalysis : List PositionContext → String
  | [] => ""
  | pos :: rest =>
    (if pos.holdingMinutes > 0 then
      let holdingText :=
        if pos.holdingMinutes < 60 then "持仓" ++ toString pos.holdingMinutes ++ "分钟"
        else "持仓" ++ toString (pos.holdingMinutes / 60) ++ "小时" ++
          toString (pos.holdingMinutes % 60) ++ "分钟"
      "- " ++ pos.symbol ++ " " ++ goToUpper pos.side ++ ": " ++ holdingText ++
        ", 盈亏" ++ fmtPlusF 2 pos.unrealizedPct ++ "%\n"
    else "") ++ renderHoldingAnalysis rest

/-- Model of `buildReflectionPrompt` (prompt builder): the Sharpe-driven
reflection framework, fixed reflection guidance, the holding-time analysis,
and the reflection workflow. -/
def buildReflectionPrompt (sharpe : Rat) (_performance : PerformanceStats)
    (positions : List PositionContext) : String :=
  "## 📊 夏普比率驱动的反思框架\n\n"
  ++ reflectionTierText (reflectionTier sharpe)
  ++ "## 📏 多维度反思指标\n\n"
  ++ "**量化标准**:\n- 优秀交易员：每天2-4笔 = 每小时0.1-0.2笔\n- 过度交易：每小时>2笔 = 严重问题\n- 最佳节奏：开仓后持有至少30-60分钟\n\n"
  ++ "**自查**:\n如果你发现自己每个周期都在交易 → 说明标准太低\n\n"
  ++ "**开仓标准（严格）**:\n- 信心度 ≥ 75（100为极度自信）\n- 多维度确认（价格+指标+量+OI+趋势）\n- 风险回报比 ≥ 1:3（硬性要求）\n- 避免单一指标决策\n\n"
  ++ "**避免低质量信号**:\n- 单一维度（只看一个指标）\n- 相互矛盾（涨但量萎缩）\n- 横盘震荡\n\n"
  ++ (if positions.length > 0 then
        "## ⏰ 当前持仓分析\n" ++ renderHoldingAnalysis positions ++ "\n"
      else "")
  ++ "## 🔄 反思执行流程\n1. **分析夏普比率**: 当前策略是否有效？需要调整吗？\n2. **评估持仓**: 趋势是否改变？是否该止盈/止损？\n3. **寻找新机会**: 有强信号吗？多空机会？\n4. **输出决策**: 思维链分析 + JSON\n\n"

/-- Model of `buildSystemPrompt` (prompt builder): hard constraints, the
reflection module, and the required response fields. -/
def buildSystemPrompt (accountEquity : Rat) (btcEthLeverage altcoinLeverage : Int)
    (limits : RiskLimits) (performance : PerformanceStats)
    (positions : List PositionContext) : String :=
  let btcEth1 : Int :=
    if btcEthLeverage ≤ 0 then truncQ (RiskLimits.maxLeverage limits) else btcEthLeverage
  let btcEth : Int := if btcEth1 ≤ 0 then 5 else btcEth1
  let altcoin : Int := if altcoinLeverage ≤ 0 then btcEth else altcoinLeverage
  "你是专业的加密货币交易AI，在币安合约市场进行自主交易。\n\n"
  ++ "# 🎯 核心目标\n\n"
  ++ "**最大化夏普比率（Sharpe Ratio）**，并保持资本曲线稳定。\n\n"
  ++ buildReflectionPrompt (PerformanceStats.sharpeRatio performance) performance positions
  ++ "# 📏 硬性约束\n\n"
  ++ "- 所有决策必须以 JSON 形式输出，且字段完整。\n"
  ++ "- 必须严格遵守风险参数：\n"
  ++ "  * BTC/ETH 最大杠杆 " ++ toString btcEth ++ "x，名义仓位上限 " ++
    fmtF 1 limits.btcEthNotionalMultiple ++ " × 账户净值。\n"
  ++ "  * 山寨币最大杠杆 " ++ toString altcoin ++ "x，名义仓位上限 " ++
    fmtF 1 limits.altNotionalMultiple ++ " × 账户净值。\n"
  ++ (if limits.maxPositionNotionalUSD > 0 then
        "  * 单笔名义价值不得超过 " ++ fmtF 2 limits.maxPositionNotionalUSD ++ " USDT。\n"
      else "")
  ++ (if limits.maxConcurrentPositions > 0 then
        "  * 最大同时持仓数：" ++ toString limits.maxConcurrentPositions ++ "。\n"
      else "")
  ++ (if RiskLimits.minRiskRewardRatio limits > 0 then
        "  * 止盈/止损需满足风险回报 ≥ " ++ fmtF 1 (RiskLimits.minRiskRewardRatio limits) ++ "。\n"
      else "")
  ++ (if accountEquity > 0 then
        "- 当前账户净值≈" ++ fmtF 2 accountEquity ++ " USDT，请优先考虑 8~10 USDT 保证金的开仓规模。\n"
      else "")
  ++ "\n# ✅ 决策必备字段\n\n"
  ++ "返回 JSON 时必须包含 action、confidence、reason、adjustments\x7bsizeMultiplier,targetLeverage,stopLossPercent,takeProfitPercent,trailingStopPercent\x7d 以及 riskNotes。\n"
  ++ "若无信号，请返回 action=\"wait\" 并说明理由。\n"

/-- The numbered position lines of the user prompt (`idx` counts from 0,
printed as `idx+1`). -/
def renderPositions (idx : Nat) : List PositionContext → String
  | [] => ""
  | pos :: rest =>
    let holdingText :=
      if pos.holdingMinutes > 0 then " | 持仓" ++ toString pos.holdingMinutes ++ "分钟" else ""
    let liquidation := if pos.liquidation > 0 then fmtF 4 pos.liquidation else "--"
    toString (idx + 1) ++ ". " ++ pos.symbol ++ " " ++ goToUpper pos.side ++
      " | 入场价" ++ fmtF 4 pos.entryPrice ++ " 当前价" ++ fmtF 4 pos.markPrice ++
      " | 盈亏" ++ fmtPlusF 2 pos.unrealizedPct ++ "% | 杠杆" ++ fmtF 1 pos.leverage ++
      "x | 保证金" ++ fmtF 2 pos.marginUsed ++ " | 强平价" ++ liquidation ++ holdingText ++ "\n"
    ++ "- 数量" ++ fmtF 4 pos.quantity ++ " | 未实现PnL " ++ fmtPlusF 2 pos.unrealizedPNL ++ "\n\n"
    ++ renderPositions (idx + 1) rest

/-- Bulleted list lines (news highlights, learning snippets). -/
def renderBullets : List String → String
  | [] => ""
  | s :: rest => "- " ++ s ++ "\n" ++ renderBullets rest

/-- The candidate-coin lines of the user prompt. -/
def renderCandidates : List CandidateContext → String
  | [] => ""
  | coin :: rest =>
    "- " ++ coin.symbol ++ " 权重" ++ fmtF 2 coin.weight ++ " 理由:" ++ coin.reason ++ "\n"
    ++ renderCandidates rest

/-- Insertion into an ascending list of strings. -/
def insertSorted (x : String) : List String → List String
  | [] => [x]
  | y :: ys => if x ≤ y then x :: y :: ys else y :: insertSorted x ys

/-- Model of `sort.Strings` over the collected map keys. -/
def sortStrings (l : List String) : List String := l.foldr insertSorted []

/-- Go map read `m[symbol]` on the association-list model (map keys are
unique, so the first match is the entry). -/
def lookupSnapshot (data : List (String × MarketDataSnapshot)) (symbol : String) :
    MarketDataSnapshot :=
  (((data.filter (fun kv : String × MarketDataSnapshot => kv.1 == symbol)).head?).map
    (fun kv : String × MarketDataSnapshot => kv.2)).getD default

/-- One market-snapshot line per sorted symbol. -/
def renderMarketLines (data : List (String × MarketDataSnapshot)) : List String → String
  | [] => ""
  | symbol :: rest =>
    let snapshot := lookupSnapshot data symbol
    "- " ++ symbol ++ " 现价" ++ fmtF 4 snapshot.currentPrice ++
      " 1h:" ++ fmtPlusF 2 snapshot.priceChange1h ++ "% 4h:" ++ fmtPlusF 2 snapshot.priceChange4h ++
      "% EMA20=" ++ fmtF 2 snapshot.ema20 ++ " MACD=" ++ fmtF 4 snapshot.macd ++
      " RSI7=" ++ fmtF 2 snapshot.rsi7 ++ " RSI14=" ++ fmtF 2 snapshot.rsi14 ++
      " Funding=" ++ fmtF 5 snapshot.fundingRate ++ " OI=" ++ fmtF 2 snapshot.openInterest ++ "\n"
    ++ renderMarketLines data rest

/-- Model of `json.Marshal(request.RiskLimits)`: fields in declaration
order under their JSON tags. -/
def marshalRiskLimits (l : RiskLimits) : String :=
  "\x7b\"maxDailyLossPercent\":" ++ goNumString l.maxDailyLossPercent ++
  ",\"maxPositionNotionalUsd\":" ++ goNumString l.maxPositionNotionalUSD ++
  ",\"maxConcurrentPositions\":" ++ toString l.maxConcurrentPositions ++
  ",\"maxLeverage\":" ++ goNumString l.maxLeverage ++
  ",\"btcEthNotionalMultiple\":" ++ goNumString l.btcEthNotionalMultiple ++
  ",\"altNotionalMultiple\":" ++ goNumString l.altNotionalMultiple ++
  ",\"minRiskRewardRatio\":" ++ goNumString (RiskLimits.minRiskRewardRatio l) ++ "\x7d"

/-- Everything `buildUserPrompt` renders after the timestamp (the rest of
the header line, account, pair, positions, news, learning snippets,
candidates, market data, performance, and the risk-limit JSON). -/
def buildUserPromptRest (ctx : promptContext) : String :=
  let request := ctx.request
  let c := request.context
  let newsSummary := formatNewsSummary request.newsSentiment.sentiment request.newsSentiment.score
  " | **运行**: " ++ toString c.runtimeMinutes ++ "分钟 | **周期**: #" ++
    toString c.callCount ++ "\n\n"
  ++ "**账户**: 净值" ++ fmtF 2 c.account.totalEquity ++ " | 可用" ++ fmtF 2 c.account.available ++
    " | 未实现PnL " ++ fmtPlusF 2 c.account.unrealizedPNL ++ " | 持仓" ++
    toString c.positions.length ++ "个\n\n"
  ++ "**交易对**: " ++ request.symbol ++ " (" ++ goToUpper request.exchange ++
    ") | 当前价格 " ++ fmtF 2 request.currentPrice ++ " | 策略信号 " ++
    request.strategySignal ++ "\n\n"
  ++ (if c.positions.length > 0 then "## 持仓明细\n" ++ renderPositions 0 c.positions
      else "## 持仓明细\n- 当前空仓\n\n")
  ++ (if newsSummary ≠ "" ∧ newsSummary ≠ "无" then
        "## 新闻情绪\n- 总结: " ++ newsSummary ++ "\n" ++
          renderBullets request.newsSentiment.highlights ++ "\n"
      else "")
  ++ (if request.learningSnippets.length > 0 then
        "## 历史学习片段\n" ++ renderBullets request.learningSnippets ++ "\n"
      else "")
  ++ (if c.candidateCoins.length > 0 then
        "## 候选币种\n" ++ renderCandidates c.candidateCoins ++ "\n"
      else "")
  ++ (if c.marketData.length > 0 then
        "## 市场数据快照\n" ++
          renderMarketLines c.marketData
            (sortStrings (c.marketData.map (fun kv : String × MarketDataSnapshot => kv.1))) ++ "\n"
      else "")
  ++ (if c.performance.totalTrades > 0 then
        "## 历史绩效\n- 交易次数: " ++ toString c.performance.totalTrades ++
          "\n- 胜率: " ++ fmtF 2 (c.performance.winRate * 100) ++
          "%\n- 夏普比: " ++ fmtF 2 (PerformanceStats.sharpeRatio c.performance) ++
          "\n- Profit Factor: " ++ fmtF 2 c.performance.profitFactor ++ "\n\n"
      else "")
  ++ "## 系统约束\n" ++ "```json\n" ++ marshalRiskLimits request.riskLimits ++ "\n```\n"

/-- Model of `buildUserPrompt` (prompt builder), with `time.Now()` made an
explicit `now` argument: the rendered timestamp followed by the context-
determined remainder. -/
def buildUserPrompt (now : String) (ctx : promptContext) : String :=
  "**时间**: " ++ now ++ buildUserPromptRest ctx

/-! Concrete inputs used by the witnesses and counterexamples below. -/

/-- A bare JSON decision, no preamble or fence. -/
def exRawPlain : String := "\x7b\"action\":\"wait\"\x7d"

/-- The decision record recovered from `exRawPlain`. -/
def exRespPlain : DecisionResponse := ⟨"wait", 0, "", ⟨0, 0, 0, 0, 0⟩, [], exRawPlain, ""⟩

/-- A decision preceded by free-text reasoning, so that the whole-content
decode fails and the brace-substring fallback succeeds. -/
def exRawFallback : String := "analysis first \x7b\"action\":\"wait\"\x7d"

/-- A fenced decision, so that fence stripping changes the content. -/
def exRawFenced : String := "```json\n\x7b\"action\":\"wait\"\x7d\n```"

/-- A transport that fails with a retryable network error on the first two
attempts and succeeds on the third. -/
def scenTwoFailThenOk : Nat → PostResult := fun n =>
  if n ≤ 2 then .fail ⟨"connection refused", false⟩
  else .success ⟨[⟨"assistant", "ok"⟩], none⟩

/-- A transport that fails with a retryable network error on every attempt. -/
def scenAllFail : Nat → PostResult := fun _ => .fail ⟨"connection reset by peer", false⟩

/-- A transport whose provider reports a business error whose text happens to
contain a network keyword. -/
def scenBizTimeout : Nat → PostResult := fun _ => .success ⟨[], some "timeout"⟩

/-! Helper lemmas. -/

/-- A list whose left trim is a fixpoint stays a fixpoint of the left trim
after trimming on the right. -/
theorem dropWhile_rdropWhile_fix (p : Char → Bool) (a : List Char)
    (h : a.dropWhile p = a) : (a.rdropWhile p).dropWhile p = a.rdropWhile p := by
  obtain ⟨t, ht⟩ := List.rdropWhile_prefix p a
  cases hb : a.rdropWhile p with
  | nil => simp
  | cons x xs =>
    rw [hb] at ht
    have hpx : p x = false := by
      by_contra hx
      simp only [Bool.not_eq_false] at hx
      have ha : a = x :: (xs ++ t) := by rw [← ht]; simp
      rw [ha, List.dropWhile_cons, if_pos hx] at h
      have hlen := congrArg List.length h
      have hsub : (List.dropWhile p (xs ++ t)).Sublist (xs ++ t) := List.dropWhile_sublist p
      have hle := hsub.length_le
      simp only [List.length_cons, List.length_append] at hlen hle
      omega
    rw [List.dropWhile_cons, if_neg (by simp [hpx])]

/-- Go `strings.TrimSpace` is idempotent. -/
theorem goTrimSpace_idem (s : String) : goTrimSpace (goTrimSpace s) = goTrimSpace s := by
  unfold goTrimSpace trimLeftList trimRightList
  show String.mk
      ((((s.data.dropWhile goIsSpace).rdropWhile goIsSpace).dropWhile
        goIsSpace).rdropWhile goIsSpace) = _
  rw [dropWhile_rdropWhile_fix _ _ (List.dropWhile_idempotent _ _),
    List.rdropWhile_idempotent]

/-- Every `trimJSONFences` result is a `goTrimSpace` image. -/
theorem trimJSONFences_trimmed (s : String) : ∃ u, trimJSONFences s = goTrimSpace u := by
  simp only [trimJSONFences]
  split
  · exact ⟨_, rfl⟩
  · exact ⟨s, rfl⟩

/-- C8 (corrected).  `trimJSONFences` is not idempotent in general (see the
counterexample), but it is idempotent on every input whose stripped result
does not itself start with a fence marker — in particular on every already
fence-free trimmed string. -/
theorem c8_fenceIdem (s : String)
    (h : goHasPrefixStr (trimJSONFences s) "```" = false) :
    trimJSONFences (trimJSONFences s) = trimJSONFences s := by
  obtain ⟨u, hu⟩ := trimJSONFences_trimmed s
  have htrim : goTrimSpace (trimJSONFences s) = trimJSONFences s := by
    rw [hu, goTrimSpace_idem]
  generalize hgen : trimJSONFences s = t at htrim h ⊢
  simp only [trimJSONFences, htrim, h]
  simp

/-- C8 counterexample: on a doubly fenced fragment one strip leaves a fenced
string and a second strip removes more, so `trimJSONFences` is not
idempotent as claimed. -/
theorem c8_fences_cex :
    trimJSONFences (trimJSONFences "``````x") ≠ trimJSONFences "``````x" := by decide

/-- C8 witness: the amended idempotence applied at a fence-free string. -/
theorem c8_fenceIdem_w :
    trimJSONFences (trimJSONFences "hello") = trimJSONFences "hello" :=
  c8_fenceIdem "hello" (by decide)

/-- C2.  The reflection-tier selection of `buildReflectionPrompt` partitions
the Sharpe-ratio line into the four tiers with inclusive lower and exclusive
upper bounds; in particular the tier is caution at exactly -0.5, steady at
exactly 0 and expand at exactly 0.7. -/
theorem c2_reflectionTierBounds :
    (∀ s : Rat,
      (reflectionTier s = .halt ↔ s < -(1 / 2 : Rat)) ∧
      (reflectionTier s = .caution ↔ -(1 / 2 : Rat) ≤ s ∧ s < 0) ∧
      (reflectionTier s = .steady ↔ 0 ≤ s ∧ s < (7 / 10 : Rat)) ∧
      (reflectionTier s = .expand ↔ (7 / 10 : Rat) ≤ s)) ∧
    reflectionTier (-(1 / 2 : Rat)) = .caution ∧
    reflectionTier 0 = .steady ∧
    reflectionTier (7 / 10 : Rat) = .expand := by
  refine ⟨fun s => ?_, by norm_num [reflectionTier], by norm_num [reflectionTier],
    by norm_num [reflectionTier]⟩
  unfold reflectionTier
  split_ifs with h1 h2 h3 <;>
    refine ⟨⟨?_, ?_⟩, ⟨?_, ?_⟩, ⟨?_, ?_⟩, ⟨?_, ?_⟩⟩ <;> intro hx <;>
    first
      | rfl
      | linarith
      | (exact absurd hx (by decide))
      | (exact ⟨by linarith, by linarith⟩)

/-- C10.  Validation never reads the confidence field: changing only
`Confidence` can never change the outcome of `validateDecisionResponse`. -/
theorem c10_confidenceIgnored :
    ∀ (d : DecisionResponse) (limits : RiskLimits) (c : Rat),
      validateDecisionResponse { d with confidence := c } limits =
        validateDecisionResponse d limits := by
  intro d limits c
  rfl

/-- C1.  Under an acceptable action and leverage, with positive stop loss,
take profit and configured minimum risk/reward, validation rejects exactly
when the take-profit/stop-loss ratio is more than `1e-9` below the minimum;
in particular `sl=1, tp=2, min=3` is rejected and `sl=1, tp=3, min=3` is
accepted. -/
theorem c1_riskRewardVeto :
    (∀ (d : DecisionResponse) (limits : RiskLimits),
      (isValidAction (goToLower (goTrimSpace d.action)) = true ∨
        goToLower (goTrimSpace d.action) = "") →
      ¬ d.adjustments.targetLeverage < 0 →
      (RiskLimits.maxLeverage limits > 0 →
        d.adjustments.targetLeverage ≤ RiskLimits.maxLeverage limits) →
      0 < d.adjustments.stopLossPercent →
      0 < d.adjustments.takeProfitPercent →
      0 < RiskLimits.minRiskRewardRatio limits →
      ((∃ e, validateDecisionResponse d limits = .error e) ↔
        d.adjustments.takeProfitPercent / d.adjustments.stopLossPercent +
          1 / 1000000000 < RiskLimits.minRiskRewardRatio limits)) ∧
    (∃ e, validateDecisionResponse ⟨"wait", 0, "", ⟨0, 0, 1, 2, 0⟩, [], "", ""⟩
      ⟨0, 0, 0, 0, 0, 0, 3⟩ = .error e) ∧
    validateDecisionResponse ⟨"wait", 0, "", ⟨0, 0, 1, 3, 0⟩, [], "", ""⟩
      ⟨0, 0, 0, 0, 0, 0, 3⟩ = .ok () := by
  refine ⟨?_, ?_, ?_⟩
  · intro d limits hAct hLev hLevMax hSL hTP hRR
    have hActPass : ((!isValidAction (goToLower (goTrimSpace d.action))) &&
        (goToLower (goTrimSpace d.action) != "")) = false := by
      rcases hAct with h | h <;> simp [h]
    have hMaxPass : ¬ (RiskLimits.maxLeverage limits > 0 ∧
        d.adjustments.targetLeverage > RiskLimits.maxLeverage limits) := by
      rintro ⟨hpos, hgt⟩
      exact absurd (hLevMax hpos) (not_le.mpr hgt)
    have hEnter : d.adjustments.stopLossPercent > 0 ∧
        d.adjustments.takeProfitPercent > 0 ∧ RiskLimits.minRiskRewardRatio limits > 0 :=
      ⟨hSL, hTP, hRR⟩
    simp only [validateDecisionResponse, hActPass, Bool.false_eq_true, if_false,
      if_neg hLev, if_neg hMaxPass]
    rw [if_pos hEnter]
    by_cases hc : d.adjustments.takeProfitPercent / d.adjustments.stopLossPercent +
        1 / 1000000000 < RiskLimits.minRiskRewardRatio limits
    · rw [if_pos hc]
      exact ⟨fun _ => hc, fun _ => ⟨_, rfl⟩⟩
    · rw [if_neg hc]
      refine ⟨fun he => ?_, fun hcc => absurd hcc hc⟩
      obtain ⟨e, he⟩ := he
      cases he
  · simp only [validateDecisionResponse]
    split_ifs with h1 h2 h3 h4 h5 <;>
      first
        | exact ⟨_, rfl⟩
        | (exfalso; norm_num at h5)
        | (exfalso; norm_num at h4)
  · simp only [validateDecisionResponse]
    split_ifs with h1 h2 h3 h4 h5 <;>
      first
        | rfl
        | (exact absurd h1 (by decide))
        | (exact absurd h2 (by decide))
        | (exact absurd h3 (by decide))
        | (exfalso; norm_num at h5)
        | (exfalso; norm_num at h4)

/-- C1 witness: the general equivalence applied at the rejected concrete
decision. -/
theorem c1_riskRewardVeto_w :
    ∃ e, validateDecisionResponse ⟨"wait", 0, "", ⟨0, 0, 1, 2, 0⟩, [], "", ""⟩
      ⟨0, 0, 0, 0, 0, 0, 3⟩ = .error e :=
  (c1_riskRewardVeto.1 ⟨"wait", 0, "", ⟨0, 0, 1, 2, 0⟩, [], "", ""⟩
    ⟨0, 0, 0, 0, 0, 0, 3⟩ (Or.inl (by decide)) (by decide)
    (fun h => absurd h (by decide)) (by decide) (by decide) (by decide)).mpr (by norm_num)

/-- C5 (corrected).  The action enumeration uses underscores, not hyphens:
with otherwise benign fields, validation accepts exactly the underscore
spellings (case-insensitively, after trimming) and the empty string. -/
theorem c5_actionEnumeration :
    ∀ a : String,
      validateDecisionResponse ⟨a, 0, "", ⟨0, 0, 0, 0, 0⟩, [], "", ""⟩
        ⟨0, 0, 0, 0, 0, 0, 0⟩ = .ok () ↔
      (goToLower (goTrimSpace a) ∈ validActionsList ∨ goToLower (goTrimSpace a) = "") := by
  intro a
  constructor
  · intro h
    by_cases hmem : validActionsList.contains (goToLower (goTrimSpace a)) = true
    · exact Or.inl (List.mem_of_elem_eq_true hmem)
    · by_cases hemp : goToLower (goTrimSpace a) = ""
      · exact Or.inr hemp
      · exfalso
        simp only [Bool.not_eq_true] at hmem
        have hcond : ((!isValidAction (goToLower (goTrimSpace a))) &&
            (goToLower (goTrimSpace a) != "")) = true := by
          simp only [isValidAction]
          rw [hmem]
          simp only [Bool.not_false, Bool.true_and]
          exact bne_iff_ne.mpr hemp
        simp only [validateDecisionResponse, hcond, if_pos] at h
        cases h
  · intro h
    have hcond : ((!isValidAction (goToLower (goTrimSpace a))) &&
        (goToLower (goTrimSpace a) != "")) = false := by
      rcases h with h | h
      · have hc1 : validActionsList.contains (goToLower (goTrimSpace a)) = true :=
          List.elem_eq_true_of_mem h
        simp only [isValidAction]
        rw [hc1]
        simp only [Bool.not_true, Bool.false_and]
      · simp [h]
    simp only [validateDecisionResponse, hcond, Bool.false_eq_true, if_false]
    split_ifs with h2 h3 h4 h5 <;>
      first
        | rfl
        | (exact absurd h2 (by decide))
        | (exact absurd h3 (by decide))
        | (exfalso; norm_num at h5)
        | (exfalso; norm_num at h4)

/-- Decoding a list of strings through the `[]string` unmarshal model gives
back exactly those strings. -/
theorem asStringList_map_str (ss : List String) :
    asStringList (.arr (ss.map Json.str)) = some ss := by
  simp only [asStringList]
  induction ss with
  | nil => rfl
  | cons s rest ih => rw [List.map_cons, List.foldr_cons, ih]

/-- On an array all of whose elements the `[]string` decode accepts, it
yields each element's decoded string (`""` for a `null` element). -/
theorem asStringList_all_strOrNull (items : List Json)
    (h : items.all isStrOrNull = true) :
    asStringList (.arr items) = some (items.map strOrNullVal) := by
  induction items with
  | nil => rfl
  | cons j rest ih =>
    simp only [List.all_cons, Bool.and_eq_true] at h
    have hrest := ih h.2
    simp only [asStringList] at hrest ⊢
    rw [List.foldr_cons, List.map_cons, hrest]
    cases j
    case str s => rfl
    case null => rfl
    all_goals exact absurd h.1 (by simp [isStrOrNull])

/-- On an array with an element the `[]string` decode rejects, the decode
fails. -/
theorem asStringList_not_all (items : List Json)
    (h : items.all isStrOrNull = false) :
    asStringList (.arr items) = none := by
  induction items with
  | nil => simp at h
  | cons j rest ih =>
    by_cases hj : isStrOrNull j = true
    · have hrest : rest.all isStrOrNull = false := by
        cases hall : rest.all isStrOrNull
        · rfl
        · rw [List.all_cons, hj, hall] at h
          cases h
      have hfr := ih hrest
      simp only [asStringList] at hfr ⊢
      rw [List.foldr_cons, hfr]
      cases j <;> rfl
    · simp only [asStringList, List.foldr_cons]
      cases j <;>
        first
          | (cases List.foldr _ (some []) rest <;> rfl)
          | (simp [isStrOrNull] at hj)

/-- C7.  The `riskNotes` coercion: absent or `null` yields the empty list, a
list of strings is kept as-is, a single string is wrapped unless blank, any
list is converted element-wise to strings — through the `[]string` decode
when every element is a string or `null` (a `null` element becomes `""`),
and through `fmt.Sprint` on each element otherwise — and every other shape
is a parse error; the four documented examples behave as specified. -/
theorem c7_riskNotesCoercion :
    (parseRiskNotes none = .ok []) ∧
    (parseRiskNotes (some .null) = .ok []) ∧
    (∀ ss : List String, parseRiskNotes (some (.arr (ss.map Json.str))) = .ok ss) ∧
    (∀ s : String,
      parseRiskNotes (some (.str s)) = .ok (if goTrimSpace s = "" then [] else [s])) ∧
    (∀ items : List Json, items.all isStrOrNull = true →
      parseRiskNotes (some (.arr items)) = .ok (items.map strOrNullVal)) ∧
    (∀ items : List Json, items.all isStrOrNull = false →
      parseRiskNotes (some (.arr items)) = .ok (items.map goSprint)) ∧
    (∀ q : Rat, ∃ e, parseRiskNotes (some (.num q)) = .error e) ∧
    (∀ b : Bool, ∃ e, parseRiskNotes (some (.bool b)) = .error e) ∧
    (∀ kvs : List (String × Json), ∃ e, parseRiskNotes (some (.obj kvs)) = .error e) ∧
    (parseRiskNotes (some (.str "single note")) = .ok ["single note"]) ∧
    (parseRiskNotes (some (.arr [.str "a", .str "b"])) = .ok ["a", "b"]) ∧
    (parseRiskNotes (some (.arr [.num 1, .str "b", .bool true])) =
      .ok ["1", "b", "true"]) ∧
    (parseRiskNotes (some (.arr [.str "a", .null])) = .ok ["a", ""]) := by
  refine ⟨rfl, rfl, ?_, ?_, ?_, ?_, ?_, ?_, ?_, by decide, by decide, by decide, by decide⟩
  · intro ss
    show (match asStringList (.arr (ss.map Json.str)) with
      | some notes => Except.ok notes
      | none => _) = Except.ok ss
    rw [asStringList_map_str]
  · intro s
    simp only [parseRiskNotes, asStringList]
    split_ifs <;> rfl
  · intro items h
    show (match asStringList (.arr items) with
      | some notes => Except.ok notes
      | none => _) = Except.ok (items.map strOrNullVal)
    rw [asStringList_all_strOrNull items h]
  · intro items h
    show (match asStringList (.arr items) with
      | some notes => Except.ok notes
      | none => Except.ok (items.map goSprint)) = Except.ok (items.map goSprint)
    rw [asStringList_not_all items h]
  · intro q
    exact ⟨_, rfl⟩
  · intro b
    exact ⟨_, rfl⟩
  · intro kvs
    exact ⟨_, rfl⟩

/-- C7 witness: the element-wise conversion applied at a string-and-null
list (the `[]string` path) and at a mixed list (the `fmt.Sprint` path). -/
theorem c7_riskNotesCoercion_w :
    parseRiskNotes (some (.arr [Json.str "a", Json.null])) =
      .ok ([Json.str "a", Json.null].map strOrNullVal) ∧
    parseRiskNotes (some (.arr [Json.num 1, Json.str "b", Json.bool true])) =
      .ok ([Json.num 1, Json.str "b", Json.bool true].map goSprint) :=
  ⟨c7_riskNotesCoercion.2.2.2.2.1 [Json.str "a", Json.null] (by decide),
    c7_riskNotesCoercion.2.2.2.2.2.1 [Json.num 1, Json.str "b", Json.bool true] (by decide)⟩

/-- Unfolding of one loop iteration (definitional). -/
theorem callLoop_step (ms : List CompletionMessage) (t : Nat → PostResult)
    (fuel attempt : Nat) (le : Option GoError) (d : List Nat) :
    callLoop ms t (fuel + 1) attempt le d =
      match sendCompletion ms (t attempt) with
      | .ok msg => ⟨.ok msg.content, attempt, d⟩
      | .error e =>
        if isNetworkError e then
          callLoop ms t fuel (attempt + 1) (some e) (d ++ [attempt * baseRetryDelaySec])
        else ⟨.error e, attempt, d⟩ := rfl

/-- The loop makes at most `fuel` further attempts. -/
theorem callLoop_attempts_le (ms : List CompletionMessage) (t : Nat → PostResult) :
    ∀ (fuel attempt : Nat) (le : Option GoError) (d : List Nat),
      (callLoop ms t fuel attempt le d).attemptsMade ≤ attempt - 1 + fuel := by
  intro fuel
  induction fuel with
  | zero =>
    intro attempt le d
    simp [callLoop]
  | succ fuel ih =>
    intro attempt le d
    rw [callLoop_step]
    rcases hsend : sendCompletion ms (t attempt) with e | msg
    · by_cases hn : isNetworkError e = true
      · simp only [hn, if_true]
        have := ih (attempt + 1) (some e) (d ++ [attempt * baseRetryDelaySec])
        omega
      · simp only [Bool.not_eq_true] at hn
        simp only [hn, Bool.false_eq_true, if_false]
        omega
    · show attempt ≤ attempt - 1 + (fuel + 1)
      omega

/-- Appending the next backoff to a linear delay prefix stays linear. -/
theorem mkDelays_succ (m : Nat) :
    mkDelays (m + 1) = mkDelays m ++ [(m + 1) * baseRetryDelaySec] := by
  simp [mkDelays, List.range'_concat, Nat.add_comm]

/-- Length of the linear delay sequence. -/
theorem mkDelays_length (m : Nat) : (mkDelays m).length = m := by
  simp [mkDelays]

/-- Starting from a linear delay prefix, the loop always produces a linear
delay sequence (`n × base` after failing attempt `n`). -/
theorem callLoop_delays (ms : List CompletionMessage) (t : Nat → PostResult) :
    ∀ (fuel attempt : Nat) (le : Option GoError), 1 ≤ attempt →
      (callLoop ms t fuel attempt le (mkDelays (attempt - 1))).delays =
        mkDelays ((callLoop ms t fuel attempt le (mkDelays (attempt - 1))).delays.length) := by
  intro fuel
  induction fuel with
  | zero =>
    intro attempt le h1
    simp [callLoop, mkDelays_length]
  | succ fuel ih =>
    intro attempt le h1
    rw [callLoop_step]
    rcases hsend : sendCompletion ms (t attempt) with e | msg
    · by_cases hn : isNetworkError e = true
      · simp only [hn, if_true]
        have hstep : mkDelays (attempt - 1) ++ [attempt * baseRetryDelaySec] =
            mkDelays ((attempt + 1) - 1) := by
          have h2 : (attempt + 1) - 1 = (attempt - 1) + 1 := by omega
          rw [h2, mkDelays_succ]
          have h3 : attempt - 1 + 1 = attempt := by omega
          rw [h3]
        rw [hstep]
        exact ih (attempt + 1) (some e) (by omega)
      · simp only [Bool.not_eq_true] at hn
        simp only [hn, Bool.false_eq_true, if_false]
        simp [mkDelays_length]
    · simp [mkDelays_length]

/-- C3.  `CallWithMessages` makes at most 3 attempts, sleeps `n × base`
(base = 2 s) after each retryable failure of attempt `n`, returns the
first success (after delays 1×base, 2×base when attempts 1 and 2 failed
retryably), and after 3 retryable failures returns a wrapped error naming
the attempt count and the last cause, not an empty success. -/
theorem c3_retryBackoff :
    maxRetries = 3 ∧ baseRetryDelaySec = 2 ∧
    (∀ (sp up : String) (t : Nat → PostResult),
      (callWithMessages sp up t).attemptsMade ≤ maxRetries) ∧
    (∀ (sp up : String) (t : Nat → PostResult),
      (callWithMessages sp up t).delays =
        mkDelays ((callWithMessages sp up t).delays.length)) ∧
    callWithMessages "s" "u" scenTwoFailThenOk =
      ⟨.ok "ok", 3, [1 * baseRetryDelaySec, 2 * baseRetryDelaySec]⟩ ∧
    callWithMessages "s" "u" scenAllFail =
      ⟨.error ⟨"重试3次后仍然失败: deepseek request: connection reset by peer", false⟩,
        3, [2, 4, 6]⟩ := by
  refine ⟨rfl, rfl, ?_, ?_, by decide, by decide⟩
  · intro sp up t
    have := callLoop_attempts_le [⟨"system", sp⟩, ⟨"user", up⟩] t maxRetries 1 none []
    simpa [callWithMessages] using this
  · intro sp up t
    have := callLoop_delays [⟨"system", sp⟩, ⟨"user", up⟩] t maxRetries 1 none (by omega)
    simpa [callWithMessages, mkDelays] using this

/-- C4 (corrected).  A provider business error or the empty-choices error is
returned on first occurrence, with no retry and no sleep, provided its text
contains none of the network keywords; the empty-choices error always
satisfies this.  (A business error whose text does contain a keyword is
retried — see the counterexample.) -/
theorem c4_nonRetryableImmediate :
    (∀ (sp up : String) (t : Nat → PostResult) (resp : CompletionResponse) (m : String),
      t 1 = .success resp → resp.error = some m → isNetSubstr m = false →
      callWithMessages sp up t = ⟨.error ⟨m, false⟩, 1, []⟩) ∧
    (∀ (sp up : String) (t : Nat → PostResult) (resp : CompletionResponse),
      t 1 = .success resp → resp.error = none → resp.choices = [] →
      callWithMessages sp up t = ⟨.error ⟨"deepseek无返回结果", false⟩, 1, []⟩) := by
  constructor
  · intro sp up t resp m ht herr hsub
    show callLoop _ t (2 + 1) 1 none [] = _
    rw [callLoop_step, ht]
    simp only [sendCompletion, herr, List.isEmpty_cons, Bool.false_eq_true, if_false]
    simp [isNetworkError, hsub]
  · intro sp up t resp ht herr hch
    show callLoop _ t (2 + 1) 1 none [] = _
    rw [callLoop_step, ht]
    simp only [sendCompletion, herr, hch, List.isEmpty_cons, Bool.false_eq_true, if_false]
    have hfalse : isNetworkError ⟨"deepseek无返回结果", false⟩ = false := by decide
    simp [hfalse]

/-- C4 witness: the amended behavior at a keyword-free business error and at
an empty-choices response. -/
theorem c4_nonRetryableImmediate_w :
    callWithMessages "s" "u" (fun _ => .success ⟨[], some "invalid api key"⟩) =
      ⟨.error ⟨"invalid api key", false⟩, 1, []⟩ ∧
    callWithMessages "s" "u" (fun _ => .success ⟨[], none⟩) =
      ⟨.error ⟨"deepseek无返回结果", false⟩, 1, []⟩ :=
  ⟨c4_nonRetryableImmediate.1 "s" "u" (fun _ => .success ⟨[], some "invalid api key"⟩)
      ⟨[], some "invalid api key"⟩ "invalid api key" rfl rfl (by decide),
    c4_nonRetryableImmediate.2 "s" "u" (fun _ => .success ⟨[], none⟩)
      ⟨[], none⟩ rfl rfl rfl⟩

/-- C4 counterexample: a provider business error whose message is exactly
"timeout" is classified retryable by the substring fallback, so the call
retries it three times with backoff instead of returning it immediately. -/
theorem c4_businessErrorRetried_cex :
    callWithMessages "s" "u" scenBizTimeout =
      ⟨.error ⟨"重试3次后仍然失败: timeout", false⟩, 3, [2, 4, 6]⟩ := by decide

/-- On success, `parseFullDecisionResponse` stores the whole fence-stripped
content and the extracted preamble, whichever decode path succeeded. -/
theorem parseFull_fields (raw : String) (resp : DecisionResponse)
    (h : parseFullDecisionResponse raw = .ok resp) :
    resp.rawContent = trimJSONFences raw ∧ resp.cotTrace = extractCoTTrace raw := by
  simp only [parseFullDecisionResponse] at h
  repeat' split at h
  all_goals cases h
  all_goals exact ⟨rfl, rfl⟩

/-- On success, the `GenerateDecision` post-processing stores the raw
response content and the extracted preamble. -/
theorem processDecision_fields (raw : String) (limits : RiskLimits)
    (resp : DecisionResponse) (h : processDecisionContent raw limits = .ok resp) :
    resp.rawContent = raw ∧ resp.cotTrace = extractCoTTrace raw := by
  simp only [processDecisionContent] at h
  cases hp : parseFullDecisionResponse raw with
  | error e =>
    simp only [hp] at h
    cases h
  | ok d0 =>
    simp only [hp] at h
    have hct := (parseFull_fields raw d0 hp).2
    repeat' split at h
    all_goals cases h
    all_goals first
      | exact ⟨rfl, rfl⟩
      | exact ⟨rfl, hct⟩

/-- C6 (corrected).  On every successful parse, `RawContent` holds the whole
fence-stripped text — also when the brace-substring fallback supplied the
decoded JSON — and `GenerateDecision` then overwrites it with the full raw
response; `CoTTrace` always holds the preamble before the first brace. -/
theorem c6_rawContentAmended :
    (∀ (raw : String) (resp : DecisionResponse),
      parseFullDecisionResponse raw = .ok resp →
      resp.rawContent = trimJSONFences raw ∧ resp.cotTrace = extractCoTTrace raw) ∧
    (∀ (raw : String) (limits : RiskLimits) (resp : DecisionResponse),
      processDecisionContent raw limits = .ok resp →
      resp.rawContent = raw ∧ resp.cotTrace = extractCoTTrace raw) :=
  ⟨parseFull_fields, processDecision_fields⟩

/-- C6 witness: the amended guarantee at a bare JSON decision. -/
theorem c6_rawContentAmended_w :
    parseFullDecisionResponse exRawPlain = .ok exRespPlain ∧
    (exRespPlain.rawContent = trimJSONFences exRawPlain ∧
      exRespPlain.cotTrace = extractCoTTrace exRawPlain) := by
  have hparse : parseFullDecisionResponse exRawPlain = .ok exRespPlain := by decide
  exact ⟨hparse, c6_rawContentAmended.1 exRawPlain exRespPlain hparse⟩

/-- C6 counterexample: on a fallback parse the stored `RawContent` is the
whole stripped text, not the brace substring the claim names, and after the
`GenerateDecision` post-processing it is the unstripped raw response. -/
theorem c6_rawContent_cex :
    (∃ e, decodeDecision (trimJSONFences exRawFallback) = .error e) ∧
    Except.map (fun r : DecisionResponse => r.rawContent)
        (parseFullDecisionResponse exRawFallback) =
      .ok "analysis first \x7b\"action\":\"wait\"\x7d" ∧
    "analysis first \x7b\"action\":\"wait\"\x7d" ≠ exRawPlain ∧
    Except.map (fun r : DecisionResponse => r.rawContent)
        (processDecisionContent exRawFenced default) =
      .ok exRawFenced ∧
    exRawFenced ≠ trimJSONFences exRawFenced := by
  exact ⟨⟨"invalid character in JSON input", by decide⟩, by decide, by decide,
    by decide, by decide⟩

/-- The rendered user prompt agrees on two clock readings only when they are
equal: the timestamp is embedded at a fixed position. -/
theorem buildUserPrompt_inj (ctx : promptContext) (t1 t2 : String) :
    buildUserPrompt t1 ctx = buildUserPrompt t2 ctx ↔ t1 = t2 := by
  constructor
  · intro h
    have hd : ("**时间**: ".data ++ t1.data) ++ (buildUserPromptRest ctx).data =
        ("**时间**: ".data ++ t2.data) ++ (buildUserPromptRest ctx).data :=
      congrArg String.data h
    exact String.ext (List.append_cancel_left (List.append_cancel_right hd))
  · intro h
    rw [h]

/-- C9 (corrected).  `buildUserPrompt` is a pure function of the prompt
context and the wall-clock timestamp, and genuinely depends on the latter:
for a fixed context, two renderings agree exactly when the clock readings
agree. -/
theorem c9_promptDeterminism :
    ∀ (ctx : promptContext) (t1 t2 : String),
      buildUserPrompt t1 ctx = buildUserPrompt t2 ctx ↔ t1 = t2 :=
  fun ctx t1 t2 => buildUserPrompt_inj ctx t1 t2

/-- C9 counterexample: one second of wall-clock drift changes the rendered
user prompt on identical inputs, refuting clock independence. -/
theorem c9_clock_cex :
    buildUserPrompt "2025-01-01 00:00:00" default ≠
      buildUserPrompt "2025-01-01 00:00:01" default :=
  fun h => absurd ((buildUserPrompt_inj default "2025-01-01 00:00:00"
    "2025-01-01 00:00:01").mp h) (by decide)

/-- C5 counterexample: the hyphenated spelling from the claim is rejected
while the underscore spelling is accepted. -/
theorem c5_actionHyphens_cex :
    validateDecisionResponse ⟨"open-long", 0, "", ⟨0, 0, 0, 0, 0⟩, [], "", ""⟩
      ⟨0, 0, 0, 0, 0, 0, 0⟩ = .error "未知 action: open-long" ∧
    validateDecisionResponse ⟨"open_long", 0, "", ⟨0, 0, 0, 0, 0⟩, [], "", ""⟩
      ⟨0, 0, 0, 0, 0, 0, 0⟩ = .ok () := by
  exact ⟨by decide, by decide⟩

end Autobot
